import Mathlib

/-!
# docker-registry-client: the authenticated-request core of `main.go`

A shallow embedding of `parseAuthenticateString`, `getToken`, `execute`,
`registry.Tags`, `registry.TagDigest`, `registry.Delete` and `deleteTag`,
followed by the properties established about them.

Conventions of the embedding

* A Go `string` is a finite sequence of code units, written `GoString`.  The
  program inspects strings only through the one-byte ASCII separators `" "`,
  `","`, `"="`, the ASCII cutset `"\","` and the ASCII prefix `"sha256:"`, so
  the embedding does not depend on how non-ASCII text is encoded.
* A Go run-time panic (index out of range, nil dereference) is an explicit
  outcome `Res.panic`.
* A `map[string]string` is an association list without repeated keys, kept in
  insertion order; only `GoMap.find`, `GoMap.index` and `GoMap.assign` touch it.
* The HTTP library is outside the repository.  A request builder
  (`SuperAgent`) is the record of what the program puts into it, and one call
  of `End()` is one step of an arbitrary deterministic transport
  `SuperAgent -> σ -> EndResult × σ`.  Every `End()` is appended to a trace,
  tagged with its call site, together with the calls of the registry
  operations.
-/

namespace DockerRegistry

/-! ## Strings, panics, maps -/

/-- A Go string as its sequence of code units.  Every separator, cutset and
prefix the program uses is ASCII, so cutting, trimming and prefix tests give the
same result on bytes and on characters. -/
abbrev GoString := List Char

/-- Run-time panics the program can raise. -/
inductive Panic where
  /-- index expression `a[i]` with `i >= len(a)` -/
  | indexOutOfRange (i len : Nat)
  /-- field access through a nil pointer -/
  | nilDereference
  deriving DecidableEq, Repr

/-- Result of a Go computation: a value, or a run-time panic. -/
inductive Res (α : Type) where
  | ok (a : α)
  | panic (p : Panic)
  deriving DecidableEq, Repr

/-- Index expression `a[i]` on a slice. -/
def sliceIndex {α : Type} (a : List α) (i : Nat) : Res α :=
  match a.get? i with
  | some x => Res.ok x
  | none => Res.panic (Panic.indexOutOfRange i a.length)

/-- A Go `map[string]string`. -/
abbrev GoMap := List (GoString × GoString)

/-- Lookup with presence: `v, ok := m[k]`. -/
def GoMap.find : GoMap → GoString → Option GoString
  | [], _ => none
  | (k1, v1) :: m, k => if k1 = k then some v1 else GoMap.find m k

/-- Index expression `m[k]`: the zero value `""` when the key is absent. -/
def GoMap.index (m : GoMap) (k : GoString) : GoString :=
  (GoMap.find m k).getD []

/-- Assignment `m[k] = v`. -/
def GoMap.assign : GoMap → GoString → GoString → GoMap
  | [], k, v => [(k, v)]
  | (k1, v1) :: m, k, v =>
    if k1 = k then (k, v) :: m else (k1, v1) :: GoMap.assign m k v

/-! ## The `strings` functions the program calls -/

/-- `strings.Index(s, sep)`: position of the first occurrence of `sep`. -/
def Index (sep : GoString) : GoString → Option Nat
  | [] => if sep = [] then some 0 else none
  | c :: t =>
    if sep.isPrefixOf (c :: t) then some 0
    else (Index sep t).map (fun i => i + 1)

/-- The cutting loop of `strings.genSplit` (with `sepSave = 0`): at most
`cuts` cuts, each at the first occurrence of `sep`; the rest is the last
element. -/
def genSplitLoop (sep : GoString) : Nat → GoString → List GoString
  | 0, s => [s]
  | cuts + 1, s =>
    match Index sep s with
    | none => [s]
    | some m => s.take m :: genSplitLoop sep cuts (s.drop (m + sep.length))

/-- `strings.explode(s, n)` on code units, reached by `genSplit` only for an
empty separator. -/
def explode (s : GoString) (n : Int) : List GoString :=
  let l := s.length
  let k := if n < 0 ∨ (l : Int) < n then l else n.toNat
  if k = 0 then [] else (s.take (k - 1)).map (fun c => [c]) ++ [s.drop (k - 1)]

/-- `strings.SplitN(s, sep, n)`.  For `n < 0` Go allows `Count(s, sep)` cuts,
which `len(s)` bounds. -/
def SplitN (s sep : GoString) (n : Int) : List GoString :=
  if n = 0 then []
  else if sep = [] then explode s n
  else if n < 0 then genSplitLoop sep s.length s
  else genSplitLoop sep (n.toNat - 1) s

/-- `strings.Split(s, sep)` is `SplitN(s, sep, -1)`. -/
def Split (s sep : GoString) : List GoString := SplitN s sep (-1)

/-- `strings.TrimLeft` for an ASCII cutset. -/
def TrimLeft (s cutset : GoString) : GoString := s.dropWhile (fun c => decide (c ∈ cutset))

/-- `strings.TrimRight` for an ASCII cutset. -/
def TrimRight (s cutset : GoString) : GoString := s.rdropWhile (fun c => decide (c ∈ cutset))

/-- `strings.Trim(s, cutset)` for an ASCII cutset. -/
def Trim (s cutset : GoString) : GoString := TrimLeft (TrimRight s cutset) cutset

/-- `strings.Join(parts, sep)`. -/
def Join (sep : GoString) : List GoString → GoString
  | [] => []
  | [p] => p
  | p :: q :: rest => p ++ sep ++ Join sep (q :: rest)

/-! ## `parseAuthenticateString` (main.go, lines 36-50) -/

/-- The cutset `"\","` of the `strings.Trim` call. -/
def trimCutset : GoString := ['"', ',']

/-- The body of `for _, part := range parts`, threaded through the remaining
parts. -/
def parseParts : List GoString → GoMap → Res GoMap
  | [], opts => Res.ok opts
  | part :: rest, opts =>
    let vals := SplitN part ['='] 2
    match sliceIndex vals 0 with
    | Res.panic p => Res.panic p
    | Res.ok key =>
      match sliceIndex vals 1 with
      | Res.panic p => Res.panic p
      | Res.ok v1 => parseParts rest (GoMap.assign opts key (Trim v1 trimCutset))

/-- Embedding of `parseAuthenticateString`. -/
def parseAuthenticateString (v : GoString) : Res GoMap :=
  let s := SplitN v [' '] 2
  match sliceIndex s 1 with
  | Res.panic p => Res.panic p
  | Res.ok s1 => parseParts (Split s1 [',']) []

/-! ## The HTTP capability: responses, request builders, transport -/

/-- An `error` value, by its message (`err.Error()`). -/
abbrev GoError := GoString

/-- `net/http.validHeaderFieldByte`: the token characters of RFC 7230. -/
def validHeaderFieldByte (c : Char) : Bool :=
  c.isAlphanum || decide (c ∈ "!#$%&'*+-.^_`|~".toList)

/-- The rewriting loop of `textproto.canonicalMIMEHeaderKey`: upper case at the
start and after `-`, lower case elsewhere. -/
def canonicalLoop : Bool → GoString → GoString
  | _, [] => []
  | upper, c :: t =>
    let c1 := if upper then c.toUpper else c.toLower
    c1 :: canonicalLoop (c1 == '-') t

/-- `textproto.CanonicalMIMEHeaderKey`: a key with a byte that is not a token
character is returned unchanged. -/
def CanonicalMIMEHeaderKey (s : GoString) : GoString :=
  if s.all validHeaderFieldByte then canonicalLoop true s else s

/-- The part of `*http.Response` the program reads.  Header keys are stored in
canonical form, as `net/http` stores them. -/
structure Response where
  StatusCode : Int
  Header : GoMap
  deriving DecidableEq, Repr

/-- `resp.Header.Get(key)`: the value under the canonical form of `key`, `""`
when there is none. -/
def Response.HeaderGet (resp : Response) (key : GoString) : GoString :=
  GoMap.index resp.Header (CanonicalMIMEHeaderKey key)

/-- The part of `*gorequest.SuperAgent` the program writes: what one `End()`
sends. -/
structure SuperAgent where
  Method : GoString
  Url : GoString
  Header : GoMap
  QueryData : List (GoString × GoString)
  BasicAuth : Option (GoString × GoString)
  deriving DecidableEq, Repr

/-- `gorequest.New().Get(url)`. -/
def SuperAgent.Get (url : GoString) : SuperAgent :=
  { Method := "GET".toList, Url := url, Header := [], QueryData := [], BasicAuth := none }

/-- `gorequest.New().Delete(url)`. -/
def SuperAgent.Delete (url : GoString) : SuperAgent :=
  { Method := "DELETE".toList, Url := url, Header := [], QueryData := [], BasicAuth := none }

/-- `s.Set(key, value)`: the header `key` is `value` from now on. -/
def SuperAgent.Set (s : SuperAgent) (key value : GoString) : SuperAgent :=
  { s with Header := GoMap.assign s.Header key value }

/-- `s.Param(key, value)`: one more query parameter. -/
def SuperAgent.Param (s : SuperAgent) (key value : GoString) : SuperAgent :=
  { s with QueryData := s.QueryData ++ [(key, value)] }

/-- `s.SetBasicAuth(username, password)`. -/
def SuperAgent.SetBasicAuth (s : SuperAgent) (username password : GoString) : SuperAgent :=
  { s with BasicAuth := some (username, password) }

/-- What `End()` returns: `(resp, body, errs)`.  `resp = none` is a nil
response, `errs = none` the nil slice. -/
structure EndResult where
  resp : Option Response
  body : GoString
  errs : Option (List GoError)
  deriving DecidableEq, Repr

/-- Observable steps of a run, in order. -/
inductive Event where
  /-- `End()` called in `execute` on this request -/
  | executeEnd (s : SuperAgent)
  /-- `End()` called in `getToken` on this request -/
  | getTokenEnd (q : SuperAgent)
  /-- `registry.Tags(repository)` entered -/
  | callTags (repository : GoString)
  /-- `registry.TagDigest(repository, ref)` entered -/
  | callTagDigest (repository ref : GoString)
  /-- `registry.Delete(repository, ref)` entered -/
  | callDelete (repository ref : GoString)
  deriving DecidableEq, Repr

/-- What the program takes from outside: the transport (one `End()` is one step
on a state `σ`), the flags `--username`, `--password`, `--registry`, and the two
uses of `json.Unmarshal`. -/
structure Env (σ : Type) where
  transport : SuperAgent → σ → EndResult × σ
  username : GoString
  password : GoString
  rootURL : GoString
  /-- the body unmarshalled into a `map[string]string`, then indexed at `"token"` -/
  jsonToken : GoString → GoString
  /-- the body unmarshalled into `{name, tags}`: the error, or the field `tags` -/
  jsonTags : GoString → Except GoError (List GoString)

/-- Transport state and the trace so far. -/
structure World (σ : Type) where
  st : σ
  trace : List Event

/-- One `End()`: a transport step, recorded with its call site. -/
def SuperAgent.End {σ : Type} (env : Env σ) (site : SuperAgent → Event) (s : SuperAgent)
    (w : World σ) : EndResult × World σ :=
  let r := env.transport s w.st
  (r.1, { st := r.2, trace := w.trace ++ [site s] })

/-- `fmt.Sprintf("%v", errs)` for `errs []error`: `[e1 e2 ...]`. -/
def fmtErrs (errs : List GoError) : GoString :=
  ['['] ++ Join [' '] errs ++ [']']

/-! ## `getToken` (main.go, lines 52-72) -/

/-- The request `getToken` builds. -/
def tokenRequest {σ : Type} (env : Env σ) (realm scope service : GoString) : SuperAgent :=
  let q := ((SuperAgent.Get realm).Param "scope".toList scope).Param "service".toList service
  if env.username ≠ [] then q.SetBasicAuth env.username env.password else q

/-- Embedding of `getToken`: `(token, errs)`. -/
def getToken {σ : Type} (env : Env σ) (realm scope service : GoString) (w : World σ) :
    (GoString × Option (List GoError)) × World σ :=
  let r := SuperAgent.End env Event.getTokenEnd (tokenRequest env realm scope service) w
  match r.1.errs with
  | some errs => (([], some errs), r.2)
  | none => ((env.jsonToken r.1.body, none), r.2)

/-! ## `execute` (main.go, lines 74-106) -/

/-- The retried request: `s.Set("Authorization", fmt.Sprintf("Bearer %s", token))`. -/
def authorized (s : SuperAgent) (token : GoString) : SuperAgent :=
  s.Set "Authorization".toList ("Bearer ".toList ++ token)

/-- Embedding of `execute`. -/
def execute {σ : Type} (env : Env σ) (s : SuperAgent) (w : World σ) :
    Res EndResult × World σ :=
  -- Try to execute request directly
  let r := SuperAgent.End env Event.executeEnd s w
  match r.1.errs with
  | some _ => (Res.ok r.1, r.2)
  | none =>
    match r.1.resp with
    | none => (Res.panic Panic.nilDereference, r.2)
    | some resp =>
      -- Don't handle the case when the api returns another error code
      if resp.StatusCode ≠ 401 then (Res.ok r.1, r.2)
      else
        let header := resp.HeaderGet "www-authenticate".toList
        if header = [] then
          (Res.ok { resp := some resp, body := r.1.body,
                    errs := some ["Empty www-authenticate header".toList] }, r.2)
        else
          -- Parse www-authenticate header
          match parseAuthenticateString header with
          | Res.panic p => (Res.panic p, r.2)
          | Res.ok opts =>
            -- Ask token to realm server
            let t := getToken env (GoMap.index opts "realm".toList)
              (GoMap.index opts "scope".toList) (GoMap.index opts "service".toList) r.2
            match t.1.2 with
            | some errs =>
              (Res.ok { resp := some resp, body := r.1.body,
                        errs := some ["Cannot retreive token: ".toList ++ fmtErrs errs] }, t.2)
            | none =>
              -- Retry request with Authorization
              let r2 := SuperAgent.End env Event.executeEnd (authorized s t.1.1) t.2
              (Res.ok r2.1, r2.2)

/-! ## The registry operations (main.go, lines 116-184) -/

/-- Appends an event to the trace. -/
def World.record {σ : Type} (w : World σ) (e : Event) : World σ :=
  { w with trace := w.trace ++ [e] }

/-- The request of `registry.Tags`. -/
def tagsRequest {σ : Type} (env : Env σ) (repository : GoString) : SuperAgent :=
  SuperAgent.Get (env.rootURL ++ "/v2/".toList ++ repository ++ "/tags/list".toList)

/-- The request of `registry.TagDigest`. -/
def tagDigestRequest {σ : Type} (env : Env σ) (repository ref : GoString) : SuperAgent :=
  (SuperAgent.Get (env.rootURL ++ "/v2/".toList ++ repository ++ "/manifests/".toList ++ ref)).Set
    "Accept".toList "application/vnd.docker.distribution.manifest.v2+json".toList

/-- The request of `registry.Delete`. -/
def deleteRequest {σ : Type} (env : Env σ) (repository ref : GoString) : SuperAgent :=
  SuperAgent.Delete (env.rootURL ++ "/v2/".toList ++ repository ++ "/manifests/".toList ++ ref)

/-- Embedding of `registry.Tags`: `(tags, err)`. -/
def Tags {σ : Type} (env : Env σ) (repository : GoString) (w : World σ) :
    Res (List GoString × Option GoError) × World σ :=
  let x := execute env (tagsRequest env repository) (w.record (Event.callTags repository))
  match x.1 with
  | Res.panic p => (Res.panic p, x.2)
  | Res.ok r =>
    match r.errs with
    | some errs => (Res.ok ([], some (fmtErrs errs)), x.2)
    | none =>
      match r.resp with
      | none => (Res.panic Panic.nilDereference, x.2)
      | some resp =>
        if resp.StatusCode ≥ 300 then
          (Res.ok ([], some ("Docker API return error: ".toList ++ r.body)), x.2)
        else
          match env.jsonTags r.body with
          | Except.error err => (Res.ok ([], some err), x.2)
          | Except.ok tags => (Res.ok (tags, none), x.2)

/-- Embedding of `registry.TagDigest`: `(digest, err)`. -/
def TagDigest {σ : Type} (env : Env σ) (repository ref : GoString) (w : World σ) :
    Res (GoString × Option GoError) × World σ :=
  let x := execute env (tagDigestRequest env repository ref)
    (w.record (Event.callTagDigest repository ref))
  match x.1 with
  | Res.panic p => (Res.panic p, x.2)
  | Res.ok r =>
    match r.errs with
    | some errs => (Res.ok ([], some (fmtErrs errs)), x.2)
    | none =>
      match r.resp with
      | none => (Res.panic Panic.nilDereference, x.2)
      | some resp =>
        if resp.StatusCode ≥ 300 then
          (Res.ok ([], some ("Docker API return error: ".toList ++ r.body)), x.2)
        else
          let digest := resp.HeaderGet "docker-content-digest".toList
          if digest = [] then
            (Res.ok ([], some "API returns empty digest".toList), x.2)
          else (Res.ok (digest, none), x.2)

/-- Embedding of `registry.Delete`: `err`. -/
def Delete {σ : Type} (env : Env σ) (repository ref : GoString) (w : World σ) :
    Res (Option GoError) × World σ :=
  let x := execute env (deleteRequest env repository ref)
    (w.record (Event.callDelete repository ref))
  match x.1 with
  | Res.panic p => (Res.panic p, x.2)
  | Res.ok r =>
    match r.errs with
    | some errs => (Res.ok (some (fmtErrs errs)), x.2)
    | none =>
      match r.resp with
      | none => (Res.panic Panic.nilDereference, x.2)
      | some resp =>
        if resp.StatusCode ≥ 300 then
          (Res.ok (some ("Docker API returns error: ".toList ++ r.body)), x.2)
        else (Res.ok none, x.2)

/-! ## `deleteTag` (main.go, lines 197-216) -/

/-- How a command ends. -/
inductive Exit where
  /-- normal return, with what was printed on standard output -/
  | returned (stdout : GoString)
  /-- `log.Fatal`: the message is logged and the process exits with status 1 -/
  | fatal (msg : GoString)
  /-- run-time panic -/
  | panicked (p : Panic)
  deriving DecidableEq, Repr

/-- Lines 211-215 of `deleteTag`: delete `ref` and report. -/
def deleteAndReport {σ : Type} (env : Env σ) (repo ref : GoString) (w : World σ) :
    Exit × World σ :=
  let d := Delete env repo ref w
  match d.1 with
  | Res.panic p => (Exit.panicked p, d.2)
  | Res.ok (some err) => (Exit.fatal err, d.2)
  | Res.ok none => (Exit.returned ("Image ".toList ++ ref ++ " deleted\n".toList), d.2)

/-- Embedding of `deleteTag`.  The guard `len(ref) >= 7 && ref[0:7] == "sha256:"`
holds exactly when `ref` starts with the seven ASCII characters `sha256:`. -/
def deleteTag {σ : Type} (env : Env σ) (repo ref : GoString) (w : World σ) :
    Exit × World σ :=
  if !(decide (ref.length ≥ 7) && decide (ref.take 7 = "sha256:".toList)) then
    let t := TagDigest env repo ref w
    match t.1 with
    | Res.panic p => (Exit.panicked p, t.2)
    | Res.ok (_, some err) => (Exit.fatal ("Cannot retreive tag digest".toList ++ err), t.2)
    | Res.ok (digest, none) => deleteAndReport env repo digest t.2
  else deleteAndReport env repo ref w

/-! ## Reading a trace -/

/-- Is the event the entry of a registry operation? -/
def Event.isCall : Event → Bool
  | Event.callTags _ => true
  | Event.callTagDigest _ _ => true
  | Event.callDelete _ _ => true
  | _ => false

/-- The registry operations entered after the first `n` events of the trace,
in order. -/
def World.callsAfter {σ : Type} (w : World σ) (n : Nat) : List Event :=
  (w.trace.drop n).filter Event.isCall

/-- The three registry operations. -/
inductive Op where
  | tags
  | tagDigest
  | delete
  deriving DecidableEq, Repr

/-- The request an operation hands to `execute`. -/
def Op.request {σ : Type} (env : Env σ) (repository ref : GoString) : Op → SuperAgent
  | Op.tags => tagsRequest env repository
  | Op.tagDigest => tagDigestRequest env repository ref
  | Op.delete => deleteRequest env repository ref

/-- The trace event of entering an operation. -/
def Op.call (repository ref : GoString) : Op → Event
  | Op.tags => Event.callTags repository
  | Op.tagDigest => Event.callTagDigest repository ref
  | Op.delete => Event.callDelete repository ref

/-- What an operation returns, in one shape: `(tags, digest, err)`, with the
components an operation does not have left empty. -/
def Op.run {σ : Type} (env : Env σ) (repository ref : GoString) (w : World σ) :
    Op → Res (List GoString × GoString × Option GoError) × World σ
  | Op.tags =>
    match Tags env repository w with
    | (Res.ok (ts, err), w1) => (Res.ok (ts, [], err), w1)
    | (Res.panic p, w1) => (Res.panic p, w1)
  | Op.tagDigest =>
    match TagDigest env repository ref w with
    | (Res.ok (d, err), w1) => (Res.ok ([], d, err), w1)
    | (Res.panic p, w1) => (Res.panic p, w1)
  | Op.delete =>
    match Delete env repository ref w with
    | (Res.ok err, w1) => (Res.ok ([], [], err), w1)
    | (Res.panic p, w1) => (Res.panic p, w1)

/-- The text before the body in an operation's API error. -/
def Op.apiErrorText : Op → GoString
  | Op.tags => "Docker API return error: ".toList
  | Op.tagDigest => "Docker API return error: ".toList
  | Op.delete => "Docker API returns error: ".toList

/-! ## Challenges of the documented form -/

/-- One challenge parameter, `key="val"`. -/
def param (p : GoString × GoString) : GoString :=
  p.1 ++ ['='] ++ (['"'] ++ p.2 ++ ['"'])

/-- The header `<scheme> <p1><sep><p2><sep>...` built from raw parameter texts. -/
def challengeWith (sep scheme : GoString) (ps : List (GoString × GoString)) : GoString :=
  scheme ++ [' '] ++ Join sep (ps.map param)

/-- The header `<scheme> k1="v1",k2="v2",...`: parameters separated by a comma. -/
def challenge (scheme : GoString) (ps : List (GoString × GoString)) : GoString :=
  challengeWith [','] scheme ps

/-- A key text the parser recovers: it holds neither `=` nor `,`. -/
def PlainKey (k : GoString) : Prop := '=' ∉ k ∧ ',' ∉ k

/-- A value the parser recovers: no comma inside, no double quote at either end. -/
def PlainVal (v : GoString) : Prop :=
  ',' ∉ v ∧ v.head? ≠ some '"' ∧ v.getLast? ≠ some '"'

/-! ## A concrete transport, for instances -/

/-- A transport that replays a script: the state is the list of results still
to be handed out; when the script is exhausted the transport fails. -/
def scripted (_ : SuperAgent) : List EndResult → EndResult × List EndResult
  | [] => ({ resp := none, body := [], errs := some ["connection refused".toList] }, [])
  | r :: rest => (r, rest)

/-- Anonymous access to `https://registry.example` over a scripted transport. -/
def scriptedEnv : Env (List EndResult) :=
  { transport := scripted
    username := []
    password := []
    rootURL := "https://registry.example".toList
    jsonToken := fun body =>
      if body = "\x7b\"token\":\"abc\"\x7d".toList then "abc".toList else []
    jsonTags := fun body =>
      if body = "\x7b\"name\":\"myorg/app\",\"tags\":[\"v1\",\"v2\"]\x7d".toList
      then Except.ok ["v1".toList, "v2".toList]
      else Except.error "unexpected end of JSON input".toList }

/-- A `401` carrying the challenge `h`. -/
def unauthorized (h : GoString) : EndResult :=
  { resp := some { StatusCode := 401, Header := [("Www-Authenticate".toList, h)] }
    body := "unauthorized".toList
    errs := none }

/-- A response with the given status, headers and body. -/
def answered (status : Int) (header : GoMap) (body : GoString) : EndResult :=
  { resp := some { StatusCode := status, Header := header }, body := body, errs := none }

/-- The challenge of scenario D. -/
def challengeD : GoString :=
  ("Bearer realm=\"https://auth.example/token\",service=\"registry.example\"," ++
    "scope=\"repository:myorg/app:pull\"").toList

/-- The challenge of scenario D with two actions in the scope, as registries
send it for push access. -/
def challengePullPush : GoString :=
  ("Bearer realm=\"https://auth.example/token\",service=\"registry.example\"," ++
    "scope=\"repository:myorg/app:pull,push\"").toList

/-- The challenge of scenario D with a space after each comma. -/
def challengeSpaced : GoString :=
  ("Bearer realm=\"https://auth.example/token\", service=\"registry.example\", " ++
    "scope=\"repository:myorg/app:pull\"").toList

/-! ## Auxiliary facts about the string functions -/

theorem Index_single_absent (c : Char) (s : GoString) (h : c ∉ s) :
    Index [c] s = none := by
  induction s with
  | nil => simp [Index]
  | cons d t ih =>
    have hd : c ≠ d := fun e => h (by simp [e])
    have ht : c ∉ t := fun e => h (List.mem_cons_of_mem _ e)
    simp [Index, List.isPrefixOf, hd, ih ht]

theorem Index_single_first (c : Char) (a b : GoString) (h : c ∉ a) :
    Index [c] (a ++ c :: b) = some a.length := by
  induction a with
  | nil => simp [Index, List.isPrefixOf]
  | cons d t ih =>
    have hd : c ≠ d := fun e => h (by simp [e])
    have ht : c ∉ t := fun e => h (List.mem_cons_of_mem _ e)
    simp [Index, List.isPrefixOf, hd, ih ht]

theorem genSplitLoop_absent (c : Char) (n : Nat) (s : GoString) (h : c ∉ s) :
    genSplitLoop [c] n s = [s] := by
  cases n with
  | zero => rfl
  | succ n => simp [genSplitLoop, Index_single_absent c s h]

theorem genSplitLoop_cut (c : Char) (n : Nat) (a b : GoString) (h : c ∉ a) :
    genSplitLoop [c] (n + 1) (a ++ c :: b) = a :: genSplitLoop [c] n b := by
  simp [genSplitLoop, Index_single_first c a b h]

theorem SplitN_two_cut (c : Char) (a b : GoString) (h : c ∉ a) :
    SplitN (a ++ c :: b) [c] 2 = [a, b] := by
  have h2 : (2 : Int).toNat - 1 = 0 + 1 := by decide
  have h3 : SplitN (a ++ c :: b) [c] 2 = genSplitLoop [c] (0 + 1) (a ++ c :: b) := by
    simp [SplitN]
  rw [h3, genSplitLoop_cut c 0 a b h]
  rfl

theorem SplitN_two_absent (c : Char) (s : GoString) (h : c ∉ s) :
    SplitN s [c] 2 = [s] := by
  simp [SplitN, genSplitLoop_absent c _ s h]

theorem genSplitLoop_Join (c : Char) (parts : List GoString)
    (hparts : ∀ p ∈ parts, c ∉ p) (p0 : GoString) (h0 : c ∉ p0) (n : Nat)
    (hn : parts.length ≤ n) :
    genSplitLoop [c] n (Join [c] (p0 :: parts)) = p0 :: parts := by
  induction parts generalizing p0 n with
  | nil => simpa [Join] using genSplitLoop_absent c n p0 h0
  | cons q rest ih =>
    cases n with
    | zero => simp at hn
    | succ n =>
      have hq : c ∉ q := hparts q (by simp)
      have hrest : ∀ p ∈ rest, c ∉ p := fun p hp => hparts p (List.mem_cons_of_mem _ hp)
      have hlen : rest.length ≤ n := by simpa using hn
      have hJ : Join [c] (p0 :: q :: rest) = p0 ++ c :: Join [c] (q :: rest) := by
        simp [Join]
      rw [hJ, genSplitLoop_cut c n p0 _ h0, ih hrest q hq n hlen]

theorem Join_length_ge (sep : GoString) (hsep : sep ≠ []) (p0 : GoString)
    (parts : List GoString) : parts.length ≤ (Join sep (p0 :: parts)).length := by
  induction parts generalizing p0 with
  | nil => simp
  | cons q rest ih =>
    have := ih q
    have hs : 0 < sep.length := List.length_pos.mpr hsep
    simp only [Join, List.length_append, List.length_cons]
    omega

theorem Split_Join (c : Char) (p0 : GoString) (parts : List GoString)
    (h0 : c ∉ p0) (hparts : ∀ p ∈ parts, c ∉ p) :
    Split (Join [c] (p0 :: parts)) [c] = p0 :: parts := by
  have h : Split (Join [c] (p0 :: parts)) [c]
      = genSplitLoop [c] (Join [c] (p0 :: parts)).length (Join [c] (p0 :: parts)) := by
    simp [Split, SplitN]
  rw [h]
  exact genSplitLoop_Join c parts hparts p0 h0 _ (Join_length_ge [c] (by simp) p0 parts)

theorem TrimRight_append_keep (s t cutset : GoString) (x : Char) (hx : x ∉ cutset) :
    TrimRight (s ++ [x] ++ t) cutset = s ++ [x] ++ TrimRight t cutset := by
  induction t using List.reverseRecOn with
  | nil => simp [TrimRight, List.rdropWhile_concat, hx]
  | append_singleton t y ih =>
    unfold TrimRight at *
    rw [← List.append_assoc, List.rdropWhile_concat, List.rdropWhile_concat]
    by_cases hy : y ∈ cutset
    · simpa [hy] using ih
    · simp [hy]

theorem Trim_quoted (v : GoString)
    (hhead : ∀ c, v.head? = some c → c ∉ trimCutset)
    (hlast : ∀ c, v.getLast? = some c → c ∉ trimCutset) :
    Trim (['"'] ++ v ++ ['"']) trimCutset = v := by
  have hq : '"' ∈ trimCutset := by decide
  cases v using List.reverseRecOn with
  | nil => decide
  | append_singleton w x =>
    have hx : x ∉ trimCutset := hlast x (by simp)
    have h1 : TrimRight (['"'] ++ (w ++ [x]) ++ ['"']) trimCutset = ['"'] ++ (w ++ [x]) := by
      have := TrimRight_append_keep (['"'] ++ w) ['"'] trimCutset x hx
      simp only [List.append_assoc] at this ⊢
      rw [this]
      simp [TrimRight, List.rdropWhile_concat, hq]
    unfold Trim
    rw [h1]
    cases hw : w ++ [x] with
    | nil => simp at hw
    | cons y t =>
      have hy : y ∉ trimCutset := hhead y (by simp [hw])
      simp [TrimLeft, List.dropWhile, hq, hy]

/-! ## Parsing challenges of the documented form -/

theorem Trim_quoted_plain (v : GoString) (h : PlainVal v) :
    Trim (['"'] ++ v ++ ['"']) trimCutset = v := by
  obtain ⟨hc, hh, hl⟩ := h
  apply Trim_quoted
  · intro c hc1 hmem
    have : c = '"' ∨ c = ',' := by simpa [trimCutset] using hmem
    rcases this with rfl | rfl
    · exact hh hc1
    · exact hc (List.mem_of_mem_head? hc1)
  · intro c hc1 hmem
    have : c = '"' ∨ c = ',' := by simpa [trimCutset] using hmem
    rcases this with rfl | rfl
    · exact hl hc1
    · exact hc (List.mem_of_mem_getLast? hc1)

theorem param_no_comma (p : GoString × GoString) (hk : PlainKey p.1) (hv : PlainVal p.2) :
    ',' ∉ param p := by
  have h1 := hk.2
  have h2 := hv.1
  simp [param, h1, h2]

theorem parseParts_params (ps : List (GoString × GoString)) (opts : GoMap)
    (h : ∀ p ∈ ps, PlainKey p.1 ∧ PlainVal p.2) :
    parseParts (ps.map param) opts
      = Res.ok (ps.foldl (fun m p => GoMap.assign m p.1 p.2) opts) := by
  induction ps generalizing opts with
  | nil => rfl
  | cons p rest ih =>
    have hp := h p (by simp)
    have hrest : ∀ q ∈ rest, PlainKey q.1 ∧ PlainVal q.2 :=
      fun q hq => h q (List.mem_cons_of_mem _ hq)
    have hs : SplitN (param p) ['='] 2 = [p.1, ['"'] ++ p.2 ++ ['"']] := by
      have := SplitN_two_cut '=' p.1 (['"'] ++ p.2 ++ ['"']) hp.1.1
      simpa [param] using this
    simp only [List.map_cons, parseParts, hs, sliceIndex, List.get?, List.foldl_cons]
    rw [Trim_quoted_plain p.2 hp.2]
    exact ih _ hrest

theorem parse_challenge (scheme : GoString) (p0 : GoString × GoString)
    (ps : List (GoString × GoString)) (hs : ' ' ∉ scheme)
    (h : ∀ p ∈ p0 :: ps, PlainKey p.1 ∧ PlainVal p.2) :
    parseAuthenticateString (challenge scheme (p0 :: ps))
      = Res.ok ((p0 :: ps).foldl (fun m p => GoMap.assign m p.1 p.2) []) := by
  have h1 : SplitN (challenge scheme (p0 :: ps)) [' '] 2
      = [scheme, Join [','] ((p0 :: ps).map param)] := by
    have := SplitN_two_cut ' ' scheme (Join [','] ((p0 :: ps).map param)) hs
    simpa [challenge, challengeWith] using this
  have h2 : Split (Join [','] ((p0 :: ps).map param)) [','] = (p0 :: ps).map param := by
    rw [List.map_cons]
    apply Split_Join
    · exact param_no_comma p0 (h p0 (by simp)).1 (h p0 (by simp)).2
    · intro q hq
      obtain ⟨p, hp, rfl⟩ := List.mem_map.mp hq
      have := h p (List.mem_cons_of_mem _ hp)
      exact param_no_comma p this.1 this.2
  simp only [parseAuthenticateString, h1, sliceIndex, List.get?]
  rw [h2]
  exact parseParts_params (p0 :: ps) [] h

theorem assign_fresh (m : GoMap) (k v : GoString) (h : k ∉ m.map Prod.fst) :
    GoMap.assign m k v = m ++ [(k, v)] := by
  induction m with
  | nil => rfl
  | cons q rest ih =>
    obtain ⟨k1, v1⟩ := q
    have hne : k1 ≠ k := fun e => h (by simp [e])
    have hr : k ∉ rest.map Prod.fst := fun e => h (by simp [e])
    simp [GoMap.assign, hne, ih hr]

theorem foldl_assign_nodup (ps : List (GoString × GoString)) (m : GoMap)
    (h : ((m ++ ps).map Prod.fst).Nodup) :
    ps.foldl (fun m p => GoMap.assign m p.1 p.2) m = m ++ ps := by
  induction ps generalizing m with
  | nil => simp
  | cons p rest ih =>
    have hfresh : p.1 ∉ m.map Prod.fst := by
      intro hmem
      rw [List.map_append, List.map_cons] at h
      have := (List.nodup_append.mp h).2.2
      exact (List.disjoint_left.mp this) hmem (by simp)
    rw [List.foldl_cons, assign_fresh m p.1 p.2 hfresh]
    have : m ++ [(p.1, p.2)] ++ rest = m ++ p :: rest := by simp
    rw [ih (m ++ [(p.1, p.2)]) (by rw [this]; exact h), this]

theorem find_eq_some_iff (m : GoMap) (h : (m.map Prod.fst).Nodup) (k v : GoString) :
    GoMap.find m k = some v ↔ (k, v) ∈ m := by
  induction m with
  | nil => simp [GoMap.find]
  | cons q rest ih =>
    obtain ⟨k1, v1⟩ := q
    rw [List.map_cons, List.nodup_cons] at h
    by_cases hk : k1 = k
    · subst hk
      have hno : ∀ w, (k1, w) ∉ rest := fun w hw => h.1 (List.mem_map.mpr ⟨(k1, w), hw, rfl⟩)
      simp only [GoMap.find, if_true, Option.some.injEq, List.mem_cons, Prod.mk.injEq, true_and]
      constructor
      · intro e; exact Or.inl e.symm
      · rintro (e | e)
        · exact e.symm
        · exact absurd e (hno v)
    · have hk2 : ¬ k = k1 := fun e => hk e.symm
      simp [GoMap.find, hk, hk2, ih h.2]

theorem find_absent (m : GoMap) (k : GoString) (h : k ∉ m.map Prod.fst) :
    GoMap.find m k = none := by
  induction m with
  | nil => rfl
  | cons q rest ih =>
    obtain ⟨k1, v1⟩ := q
    have hne : k1 ≠ k := fun e => h (by simp [e])
    have hr : k ∉ rest.map Prod.fst := fun e => h (by simp [e])
    simp [GoMap.find, hne, ih hr]

theorem find_perm (m1 m2 : GoMap) (hp : m1.Perm m2) (h : (m2.map Prod.fst).Nodup)
    (k : GoString) : GoMap.find m1 k = GoMap.find m2 k := by
  have h1 : (m1.map Prod.fst).Nodup := ((hp.map Prod.fst).nodup_iff).mpr h
  apply Option.ext
  intro v
  simp only [Option.mem_def]
  rw [find_eq_some_iff m1 h1, find_eq_some_iff m2 h, hp.mem_iff]

theorem parse_same_rest (a b rest : GoString) (ha : ' ' ∉ a) (hb : ' ' ∉ b) :
    parseAuthenticateString (a ++ ' ' :: rest) = parseAuthenticateString (b ++ ' ' :: rest) := by
  simp only [parseAuthenticateString, SplitN_two_cut ' ' a rest ha,
    SplitN_two_cut ' ' b rest hb, sliceIndex, List.get?]

theorem parse_no_space (v : GoString) (h : ' ' ∉ v) :
    parseAuthenticateString v = Res.panic (Panic.indexOutOfRange 1 1) := by
  simp only [parseAuthenticateString, SplitN_two_absent ' ' v h, sliceIndex, List.get?,
    List.length_singleton]

theorem parseParts_missing_eq (parts : List GoString) (opts : GoMap)
    (h : ∃ p ∈ parts, '=' ∉ p) :
    parseParts parts opts = Res.panic (Panic.indexOutOfRange 1 1) := by
  induction parts generalizing opts with
  | nil => simp at h
  | cons q rest ih =>
    by_cases hq : '=' ∈ q
    · obtain ⟨a, b, hab, ha⟩ := List.eq_append_cons_of_mem hq
      have hrest : ∃ p ∈ rest, '=' ∉ p := by
        obtain ⟨p, hp, hpe⟩ := h
        rcases List.mem_cons.mp hp with rfl | hp
        · exact absurd hq hpe
        · exact ⟨p, hp, hpe⟩
      subst hab
      simp only [parseParts, SplitN_two_cut '=' a b ha, sliceIndex, List.get?]
      exact ih _ hrest
    · simp only [parseParts, SplitN_two_absent '=' q hq, sliceIndex, List.get?,
        List.length_singleton]

theorem Join_cons_head (sep : GoString) (c : Char) (x : GoString) (xs : List GoString) :
    Join sep ((c :: x) :: xs) = c :: Join sep (x :: xs) := by
  cases xs <;> simp [Join]

theorem Join_comma_space (p0 : GoString × GoString) (ps : List (GoString × GoString)) :
    Join [',', ' '] ((p0 :: ps).map param)
      = Join [','] ((p0 :: ps.map (fun p => (' ' :: p.1, p.2))).map param) := by
  induction ps generalizing p0 with
  | nil => rfl
  | cons q rest ih =>
    have h := ih q
    have hq : param (' ' :: q.1, q.2) = ' ' :: param q := by simp [param]
    simp only [List.map_cons, Join, hq] at h ⊢
    rw [h, Join_cons_head]
    simp

theorem plainKey_space (k : GoString) (h : PlainKey k) : PlainKey (' ' :: k) := by
  obtain ⟨h1, h2⟩ := h
  constructor
  · intro hm
    rcases List.mem_cons.mp hm with e | e
    · exact absurd e (by decide)
    · exact h1 e
  · intro hm
    rcases List.mem_cons.mp hm with e | e
    · exact absurd e (by decide)
    · exact h2 e

/-! ## Auxiliary facts about maps and `execute` -/

theorem find_assign_same (m : GoMap) (k v : GoString) :
    GoMap.find (GoMap.assign m k v) k = some v := by
  induction m with
  | nil => simp [GoMap.assign, GoMap.find]
  | cons q rest ih =>
    obtain ⟨k1, v1⟩ := q
    by_cases hk : k1 = k
    · simp [GoMap.assign, GoMap.find, hk]
    · simp [GoMap.assign, GoMap.find, hk, ih]

theorem find_assign_other (m : GoMap) (k v k2 : GoString) (h : k2 ≠ k) :
    GoMap.find (GoMap.assign m k v) k2 = GoMap.find m k2 := by
  induction m with
  | nil =>
    have h2 : ¬ k = k2 := fun e => h e.symm
    simp [GoMap.assign, GoMap.find, h2]
  | cons q rest ih =>
    obtain ⟨k1, v1⟩ := q
    by_cases hk : k1 = k
    · subst hk
      have h2 : ¬ k1 = k2 := fun e => h e.symm
      simp [GoMap.assign, GoMap.find, h2]
    · by_cases hk2 : k1 = k2
      · subst hk2
        simp [GoMap.assign, GoMap.find, hk]
      · simp [GoMap.assign, GoMap.find, hk, hk2, ih]

/-- The first attempt of `execute` was answered `401` with a non-empty
challenge: what `execute` does next. -/
theorem execute_challenged {σ : Type} (env : Env σ) (s : SuperAgent) (w : World σ)
    (resp : Response) (body : GoString) (st1 : σ)
    (h1 : env.transport s w.st = ({ resp := some resp, body := body, errs := none }, st1))
    (h401 : resp.StatusCode = 401)
    (hhdr : resp.HeaderGet "www-authenticate".toList ≠ []) :
    execute env s w =
      match parseAuthenticateString (resp.HeaderGet "www-authenticate".toList) with
      | Res.panic p => (Res.panic p, { st := st1, trace := w.trace ++ [Event.executeEnd s] })
      | Res.ok opts =>
        let t := getToken env (GoMap.index opts "realm".toList)
          (GoMap.index opts "scope".toList) (GoMap.index opts "service".toList)
          { st := st1, trace := w.trace ++ [Event.executeEnd s] }
        match t.1.2 with
        | some errs =>
          (Res.ok { resp := some resp, body := body,
                    errs := some ["Cannot retreive token: ".toList ++ fmtErrs errs] }, t.2)
        | none =>
          (Res.ok (env.transport (authorized s t.1.1) t.2.st).1,
            { st := (env.transport (authorized s t.1.1) t.2.st).2,
              trace := t.2.trace ++ [Event.executeEnd (authorized s t.1.1)] }) := by
  simp only [execute, SuperAgent.End, h1, h401, ne_eq, not_true_eq_false, if_false, hhdr]

theorem getToken_trace {σ : Type} (env : Env σ) (realm scope service : GoString)
    (w : World σ) :
    (getToken env realm scope service w).2
      = { st := (env.transport (tokenRequest env realm scope service) w.st).2,
          trace := w.trace ++ [Event.getTokenEnd (tokenRequest env realm scope service)] } := by
  simp only [getToken, SuperAgent.End]
  cases (env.transport (tokenRequest env realm scope service) w.st).1.errs <;> rfl

/-! ## Auxiliary facts about traces -/

theorem execute_trace {σ : Type} (env : Env σ) (s : SuperAgent) (w : World σ) :
    ∃ evs, (execute env s w).2.trace = w.trace ++ evs ∧ evs.filter Event.isCall = [] := by
  simp only [execute, SuperAgent.End]
  split
  · exact ⟨[Event.executeEnd s], rfl, rfl⟩
  · split
    · exact ⟨[Event.executeEnd s], rfl, rfl⟩
    · split
      · exact ⟨[Event.executeEnd s], rfl, rfl⟩
      · split
        · exact ⟨[Event.executeEnd s], rfl, rfl⟩
        · split
          · exact ⟨[Event.executeEnd s], rfl, rfl⟩
          · split
            · simp only [getToken_trace, List.append_assoc]
              exact ⟨_, rfl, rfl⟩
            · simp only [getToken_trace, List.append_assoc]
              exact ⟨_, rfl, rfl⟩

theorem TagDigest_world {σ : Type} (env : Env σ) (repo ref : GoString) (w : World σ) :
    (TagDigest env repo ref w).2
      = (execute env (tagDigestRequest env repo ref)
          (w.record (Event.callTagDigest repo ref))).2 := by
  simp only [TagDigest]
  repeat' split
  all_goals rfl

theorem Delete_world {σ : Type} (env : Env σ) (repo ref : GoString) (w : World σ) :
    (Delete env repo ref w).2
      = (execute env (deleteRequest env repo ref) (w.record (Event.callDelete repo ref))).2 := by
  simp only [Delete]
  repeat' split
  all_goals rfl

theorem TagDigest_trace {σ : Type} (env : Env σ) (repo ref : GoString) (w : World σ) :
    ∃ evs, (TagDigest env repo ref w).2.trace
        = w.trace ++ Event.callTagDigest repo ref :: evs ∧
      evs.filter Event.isCall = [] := by
  obtain ⟨evs, h1, h2⟩ := execute_trace env (tagDigestRequest env repo ref)
    (w.record (Event.callTagDigest repo ref))
  exact ⟨evs, by rw [TagDigest_world, h1]; simp [World.record], h2⟩

theorem Delete_trace {σ : Type} (env : Env σ) (repo ref : GoString) (w : World σ) :
    ∃ evs, (Delete env repo ref w).2.trace = w.trace ++ Event.callDelete repo ref :: evs ∧
      evs.filter Event.isCall = [] := by
  obtain ⟨evs, h1, h2⟩ := execute_trace env (deleteRequest env repo ref)
    (w.record (Event.callDelete repo ref))
  exact ⟨evs, by rw [Delete_world, h1]; simp [World.record], h2⟩

theorem deleteAndReport_world {σ : Type} (env : Env σ) (repo ref : GoString) (w : World σ) :
    (deleteAndReport env repo ref w).2 = (Delete env repo ref w).2 := by
  simp only [deleteAndReport]
  repeat' split
  all_goals rfl

theorem digest_form_iff (ref : GoString) :
    (decide (ref.length ≥ 7) && decide (ref.take 7 = "sha256:".toList)) = true
      ↔ "sha256:".toList <+: ref := by
  rw [List.prefix_iff_eq_take]
  have hl : "sha256:".toList.length = 7 := by decide
  rw [hl]
  simp only [Bool.and_eq_true, decide_eq_true_eq]
  constructor
  · rintro ⟨_, h⟩
    exact h.symm
  · intro h
    refine ⟨?_, h.symm⟩
    have := congrArg List.length h
    rw [hl, List.length_take] at this
    omega

theorem callsAfter_of_trace {σ : Type} (w w2 : World σ) (evs : List Event)
    (h : w2.trace = w.trace ++ evs) :
    w2.callsAfter w.trace.length = evs.filter Event.isCall := by
  simp [World.callsAfter, h]

/-! ## The claims -/

/-- C1, as amended.  For all values R, S and Sc that contain no comma and
neither begin nor end with a double quote, and for every ordering `ps` of the
three parameters, parsing `Bearer k1="v1",k2="v2",k3="v3"` returns a map whose
entries are exactly realm ↦ R, service ↦ S, scope ↦ Sc: the same three entries,
and the same lookups, whatever the ordering. -/
theorem parse_bearer_realm_service_scope (R S Sc : GoString)
    (hR : PlainVal R) (hS : PlainVal S) (hSc : PlainVal Sc)
    (ps : List (GoString × GoString))
    (hperm : ps.Perm [("realm".toList, R), ("service".toList, S), ("scope".toList, Sc)]) :
    ∃ m, parseAuthenticateString (challenge "Bearer".toList ps) = Res.ok m ∧
      m.Perm [("realm".toList, R), ("service".toList, S), ("scope".toList, Sc)] ∧
      ∀ k, GoMap.find m k
        = GoMap.find [("realm".toList, R), ("service".toList, S), ("scope".toList, Sc)] k := by
  have hkeys : ([("realm".toList, R), ("service".toList, S), ("scope".toList, Sc)].map
      Prod.fst).Nodup := by
    simp only [List.map_cons, List.map_nil]
    decide
  have hnd : (ps.map Prod.fst).Nodup := ((hperm.map Prod.fst).nodup_iff).mpr hkeys
  have hall : ∀ p ∈ ps, PlainKey p.1 ∧ PlainVal p.2 := by
    intro p hp
    have hmem := hperm.mem_iff.mp hp
    simp only [List.mem_cons, List.mem_singleton, List.not_mem_nil, or_false] at hmem
    have k1 : PlainKey "realm".toList := ⟨by decide, by decide⟩
    have k2 : PlainKey "service".toList := ⟨by decide, by decide⟩
    have k3 : PlainKey "scope".toList := ⟨by decide, by decide⟩
    rcases hmem with rfl | rfl | rfl
    · exact ⟨k1, hR⟩
    · exact ⟨k2, hS⟩
    · exact ⟨k3, hSc⟩
  cases ps with
  | nil => exact absurd hperm.length_eq (by simp)
  | cons p0 rest =>
    refine ⟨p0 :: rest, ?_, hperm, fun k => find_perm _ _ hperm hkeys k⟩
    rw [parse_challenge "Bearer".toList p0 rest (by decide) hall]
    have := foldl_assign_nodup (p0 :: rest) [] (by simpa using hnd)
    simpa using this

/-- Witness for C1: the challenge of scenario D with the parameters in the order
scope, realm, service. -/
theorem parse_bearer_realm_service_scope_witness :
    challenge "Bearer".toList
        [("scope".toList, "repository:myorg/app:pull".toList),
         ("realm".toList, "https://auth.example/token".toList),
         ("service".toList, "registry.example".toList)]
      = ("Bearer scope=\"repository:myorg/app:pull\"," ++
          "realm=\"https://auth.example/token\",service=\"registry.example\"").toList ∧
    ∃ m, parseAuthenticateString (challenge "Bearer".toList
        [("scope".toList, "repository:myorg/app:pull".toList),
         ("realm".toList, "https://auth.example/token".toList),
         ("service".toList, "registry.example".toList)]) = Res.ok m ∧
      m.Perm [("realm".toList, "https://auth.example/token".toList),
        ("service".toList, "registry.example".toList),
        ("scope".toList, "repository:myorg/app:pull".toList)] ∧
      ∀ k, GoMap.find m k
        = GoMap.find [("realm".toList, "https://auth.example/token".toList),
            ("service".toList, "registry.example".toList),
            ("scope".toList, "repository:myorg/app:pull".toList)] k :=
  ⟨by decide,
   parse_bearer_realm_service_scope "https://auth.example/token".toList
    "registry.example".toList "repository:myorg/app:pull".toList
    ⟨by decide, by decide, by decide⟩ ⟨by decide, by decide, by decide⟩
    ⟨by decide, by decide, by decide⟩ _ (by decide)⟩

/-- Counterexample to C1 as stated: with R a single double quote the header is
`Bearer realm=""",service="s",scope="sc"`, and `strings.Trim` strips all three
quotes, so realm is bound to the empty string, not to R. -/
theorem parse_bearer_quote_value_counterexample :
    challenge "Bearer".toList
        [("realm".toList, ['"']), ("service".toList, "s".toList), ("scope".toList, "sc".toList)]
      = "Bearer realm=\"\"\",service=\"s\",scope=\"sc\"".toList ∧
    parseAuthenticateString (challenge "Bearer".toList
        [("realm".toList, ['"']), ("service".toList, "s".toList), ("scope".toList, "sc".toList)])
      = Res.ok [("realm".toList, []), ("service".toList, "s".toList),
          ("scope".toList, "sc".toList)] ∧
    parseAuthenticateString (challenge "Bearer".toList
        [("realm".toList, ['"']), ("service".toList, "s".toList), ("scope".toList, "sc".toList)])
      ≠ Res.ok [("realm".toList, ['"']), ("service".toList, "s".toList),
          ("scope".toList, "sc".toList)] ∧
    GoMap.find [("realm".toList, []), ("service".toList, "s".toList),
        ("scope".toList, "sc".toList)] "realm".toList ≠ some ['"'] := by
  decide

/-- C7, on the code.  For a header `<scheme> k1="v1", k2="v2", ...` whose
parameters are separated by a comma followed by a space (scheme without a space,
keys without `=` and `,`, values without a comma and without a double quote at
either end, the texts k1, ` k2`, ` k3`, ... pairwise distinct, the later keys
different from k1 and not beginning with a space), the parser cuts at the commas
only and does not trim the space: k1 is bound to v1, but every later value vi is
stored under the key made of a space followed by ki, and the key ki itself is
absent from the map, so that `opts[ki]` is the empty string. -/
theorem parse_comma_space_keys (scheme : GoString) (p0 : GoString × GoString)
    (ps : List (GoString × GoString)) (hs : ' ' ∉ scheme)
    (h : ∀ p ∈ p0 :: ps, PlainKey p.1 ∧ PlainVal p.2)
    (hnd : ((p0 :: ps.map (fun p => (' ' :: p.1, p.2))).map Prod.fst).Nodup)
    (hbare : ∀ p ∈ ps, p.1 ≠ p0.1 ∧ p.1.head? ≠ some ' ') :
    parseAuthenticateString (challengeWith [',', ' '] scheme (p0 :: ps))
      = Res.ok (p0 :: ps.map (fun p => (' ' :: p.1, p.2))) ∧
    GoMap.find (p0 :: ps.map (fun p => (' ' :: p.1, p.2))) p0.1 = some p0.2 ∧
    ∀ p ∈ ps,
      GoMap.find (p0 :: ps.map (fun p => (' ' :: p.1, p.2))) (' ' :: p.1) = some p.2 ∧
      GoMap.find (p0 :: ps.map (fun p => (' ' :: p.1, p.2))) p.1 = none ∧
      GoMap.index (p0 :: ps.map (fun p => (' ' :: p.1, p.2))) p.1 = [] := by
  have hall : ∀ p ∈ p0 :: ps.map (fun p => (' ' :: p.1, p.2)), PlainKey p.1 ∧ PlainVal p.2 := by
    intro p hp
    rcases List.mem_cons.mp hp with rfl | hp
    · exact h p (by simp)
    · obtain ⟨q, hq, rfl⟩ := List.mem_map.mp hp
      have := h q (List.mem_cons_of_mem _ hq)
      exact ⟨plainKey_space q.1 this.1, this.2⟩
  refine ⟨?_, ?_, ?_⟩
  · have e : challengeWith [',', ' '] scheme (p0 :: ps)
        = challenge scheme (p0 :: ps.map (fun p => (' ' :: p.1, p.2))) := by
      simp only [challenge, challengeWith, Join_comma_space]
    rw [e, parse_challenge scheme p0 _ hs hall]
    have := foldl_assign_nodup (p0 :: ps.map (fun p => (' ' :: p.1, p.2))) [] (by simpa using hnd)
    simpa using this
  · exact (find_eq_some_iff _ hnd _ _).mpr (by simp)
  · intro p hp
    have habs : GoMap.find (p0 :: ps.map (fun p => (' ' :: p.1, p.2))) p.1 = none := by
      apply find_absent
      intro hmem
      rw [List.map_cons, List.mem_cons] at hmem
      rcases hmem with e | hmem
      · exact (hbare p hp).1 e
      · obtain ⟨q, hq, hqe⟩ := List.mem_map.mp hmem
        obtain ⟨q0, _, rfl⟩ := List.mem_map.mp hq
        exact (hbare p hp).2 (by rw [← hqe]; rfl)
    refine ⟨?_, habs, ?_⟩
    · refine (find_eq_some_iff _ hnd _ _).mpr (List.mem_cons_of_mem _ ?_)
      exact List.mem_map.mpr ⟨p, hp, rfl⟩
    · simp only [GoMap.index, habs, Option.getD_none]

/-- Witness for C7: the challenge of scenario D written with a space after each
comma.  The parser stores ` service` and ` scope`; `execute` then reads
`opts["scope"]` and `opts["service"]` as empty and asks the token server with an
empty scope and an empty service. -/
theorem parse_comma_space_keys_witness :
    challengeWith [',', ' '] "Bearer".toList
        [("realm".toList, "https://auth.example/token".toList),
         ("service".toList, "registry.example".toList),
         ("scope".toList, "repository:myorg/app:pull".toList)]
      = challengeSpaced ∧
    parseAuthenticateString (challengeWith [',', ' '] "Bearer".toList
        [("realm".toList, "https://auth.example/token".toList),
         ("service".toList, "registry.example".toList),
         ("scope".toList, "repository:myorg/app:pull".toList)])
      = Res.ok [("realm".toList, "https://auth.example/token".toList),
          (" service".toList, "registry.example".toList),
          (" scope".toList, "repository:myorg/app:pull".toList)] ∧
    GoMap.index [("realm".toList, "https://auth.example/token".toList),
        (" service".toList, "registry.example".toList),
        (" scope".toList, "repository:myorg/app:pull".toList)] "service".toList = [] ∧
    GoMap.index [("realm".toList, "https://auth.example/token".toList),
        (" service".toList, "registry.example".toList),
        (" scope".toList, "repository:myorg/app:pull".toList)] "scope".toList = [] ∧
    (execute scriptedEnv (tagsRequest scriptedEnv "myorg/app".toList)
        { st := [unauthorized challengeSpaced,
                 answered 200 [] "\x7b\"token\":\"abc\"\x7d".toList,
                 answered 200 [] []], trace := [] }).2.trace
      = [Event.executeEnd (tagsRequest scriptedEnv "myorg/app".toList),
         Event.getTokenEnd
           { Method := "GET".toList, Url := "https://auth.example/token".toList,
             Header := [],
             QueryData := [("scope".toList, []), ("service".toList, [])],
             BasicAuth := none },
         Event.executeEnd (authorized (tagsRequest scriptedEnv "myorg/app".toList)
           "abc".toList)] :=
  ⟨by decide,
   (parse_comma_space_keys "Bearer".toList ("realm".toList, "https://auth.example/token".toList)
    [("service".toList, "registry.example".toList),
     ("scope".toList, "repository:myorg/app:pull".toList)] (by decide)
    (by
      intro p hp
      simp only [List.mem_cons, List.mem_singleton, List.not_mem_nil, or_false] at hp
      rcases hp with rfl | rfl | rfl
      · exact ⟨⟨by decide, by decide⟩, by decide, by decide, by decide⟩
      · exact ⟨⟨by decide, by decide⟩, by decide, by decide, by decide⟩
      · exact ⟨⟨by decide, by decide⟩, by decide, by decide, by decide⟩)
    (by decide)
    (by
      intro p hp
      simp only [List.mem_cons, List.mem_singleton, List.not_mem_nil, or_false] at hp
      rcases hp with rfl | rfl
      · exact ⟨by decide, by decide⟩
      · exact ⟨by decide, by decide⟩)).1,
   by decide, by decide, by decide⟩

/-- C3.  When the first attempt fails in the transport (`errs != nil`) or is
answered with a status other than 401, `execute` returns that attempt's
`(resp, body, errs)` as it is, and the run consists of that single `End()`:
no token request, no second request, no panic from parsing. -/
theorem execute_passthrough {σ : Type} (env : Env σ) (s : SuperAgent) (w : World σ)
    (h : (env.transport s w.st).1.errs ≠ none ∨
      ∃ resp, (env.transport s w.st).1.resp = some resp ∧ resp.StatusCode ≠ 401) :
    execute env s w
      = (Res.ok (env.transport s w.st).1,
         { st := (env.transport s w.st).2, trace := w.trace ++ [Event.executeEnd s] }) := by
  simp only [execute, SuperAgent.End]
  cases he : (env.transport s w.st).1.errs with
  | some errs => rfl
  | none =>
    rcases h with h | ⟨resp, hr, hs⟩
    · exact absurd he h
    · simp only [hr, hs, ne_eq, not_false_eq_true, if_true]

/-- Witness for C3: a `404` on the tags request, and a transport failure. -/
theorem execute_passthrough_witness :
    execute scriptedEnv (tagsRequest scriptedEnv "myorg/app".toList)
        { st := [answered 404 [] "not found".toList], trace := [] }
      = (Res.ok (answered 404 [] "not found".toList),
         { st := [],
           trace := [Event.executeEnd (tagsRequest scriptedEnv "myorg/app".toList)] }) ∧
    execute scriptedEnv (tagsRequest scriptedEnv "myorg/app".toList) { st := [], trace := [] }
      = (Res.ok { resp := none, body := [], errs := some ["connection refused".toList] },
         { st := [],
           trace := [Event.executeEnd (tagsRequest scriptedEnv "myorg/app".toList)] }) :=
  ⟨execute_passthrough scriptedEnv (tagsRequest scriptedEnv "myorg/app".toList)
      { st := [answered 404 [] "not found".toList], trace := [] }
      (Or.inr ⟨{ StatusCode := 404, Header := [] }, rfl, by decide⟩),
   execute_passthrough scriptedEnv (tagsRequest scriptedEnv "myorg/app".toList)
      { st := [], trace := [] } (Or.inl (by decide))⟩

/-- C4.  When the first attempt is answered `401` and `Header.Get` finds no
value, or an empty one, for `www-authenticate`, `execute` returns the one-element
error list `["Empty www-authenticate header"]` with the first response and body,
and the run consists of the first `End()` alone: no token request, no second
request. -/
theorem execute_empty_challenge {σ : Type} (env : Env σ) (s : SuperAgent) (w : World σ)
    (resp : Response) (body : GoString) (st1 : σ)
    (h1 : env.transport s w.st = ({ resp := some resp, body := body, errs := none }, st1))
    (h401 : resp.StatusCode = 401)
    (hhdr : resp.HeaderGet "www-authenticate".toList = []) :
    execute env s w
      = (Res.ok { resp := some resp, body := body,
                  errs := some ["Empty www-authenticate header".toList] },
         { st := st1, trace := w.trace ++ [Event.executeEnd s] }) := by
  simp only [execute, SuperAgent.End, h1, h401, ne_eq, not_true_eq_false, if_false, hhdr,
    if_true]

/-- Witness for C4: a `401` without any header; the token server's answer that
waits in the script is never asked for. -/
theorem execute_empty_challenge_witness :
    execute scriptedEnv (tagsRequest scriptedEnv "myorg/app".toList)
        { st := [answered 401 [] "unauthorized".toList,
                 answered 200 [] "\x7b\"token\":\"abc\"\x7d".toList], trace := [] }
      = (Res.ok { resp := some { StatusCode := 401, Header := [] },
                  body := "unauthorized".toList,
                  errs := some ["Empty www-authenticate header".toList] },
         { st := [answered 200 [] "\x7b\"token\":\"abc\"\x7d".toList],
           trace := [Event.executeEnd (tagsRequest scriptedEnv "myorg/app".toList)] }) :=
  execute_empty_challenge scriptedEnv (tagsRequest scriptedEnv "myorg/app".toList)
    { st := [answered 401 [] "unauthorized".toList,
             answered 200 [] "\x7b\"token\":\"abc\"\x7d".toList], trace := [] }
    { StatusCode := 401, Header := [] } "unauthorized".toList
    [answered 200 [] "\x7b\"token\":\"abc\"\x7d".toList] rfl rfl (by decide)

/-- C2.  When the first attempt is answered `401` with a non-empty challenge
that parses to `opts`, and `getToken` on the realm, scope and service of `opts`
returns the token `t` without errors, `execute` performs exactly three `End()`
calls: the request `s`, the token request, and `s` with `Authorization` set to
`Bearer t`.  It returns the result of that last call, whatever it is.  The
retried request has the method, URL, query and credentials of `s`, and every
header other than `Authorization` as in `s`. -/
theorem execute_retry_with_token {σ : Type} (env : Env σ) (s : SuperAgent) (w : World σ)
    (resp : Response) (body : GoString) (st1 : σ) (opts : GoMap) (t : GoString)
    (w2 : World σ)
    (h1 : env.transport s w.st = ({ resp := some resp, body := body, errs := none }, st1))
    (h401 : resp.StatusCode = 401)
    (hhdr : resp.HeaderGet "www-authenticate".toList ≠ [])
    (hparse : parseAuthenticateString (resp.HeaderGet "www-authenticate".toList) = Res.ok opts)
    (htok : getToken env (GoMap.index opts "realm".toList) (GoMap.index opts "scope".toList)
        (GoMap.index opts "service".toList)
        { st := st1, trace := w.trace ++ [Event.executeEnd s] } = ((t, none), w2)) :
    execute env s w
      = (Res.ok (env.transport (authorized s t) w2.st).1,
         { st := (env.transport (authorized s t) w2.st).2,
           trace := w.trace ++
             [Event.executeEnd s,
              Event.getTokenEnd (tokenRequest env (GoMap.index opts "realm".toList)
                (GoMap.index opts "scope".toList) (GoMap.index opts "service".toList)),
              Event.executeEnd (authorized s t)] }) ∧
    (authorized s t).Method = s.Method ∧ (authorized s t).Url = s.Url ∧
    (authorized s t).QueryData = s.QueryData ∧ (authorized s t).BasicAuth = s.BasicAuth ∧
    GoMap.find (authorized s t).Header "Authorization".toList = some ("Bearer ".toList ++ t) ∧
    ∀ k, k ≠ "Authorization".toList →
      GoMap.find (authorized s t).Header k = GoMap.find s.Header k := by
  refine ⟨?_, rfl, rfl, rfl, rfl, find_assign_same _ _ _, fun k hk => find_assign_other _ _ _ k hk⟩
  have htr := getToken_trace env (GoMap.index opts "realm".toList)
    (GoMap.index opts "scope".toList) (GoMap.index opts "service".toList)
    { st := st1, trace := w.trace ++ [Event.executeEnd s] }
  rw [htok] at htr
  have hw2 : w2 = _ := htr
  rw [execute_challenged env s w resp body st1 h1 h401 hhdr, hparse]
  simp only [htok]
  rw [hw2]
  simp

/-- Witness for C2: scenario D, with the retried request answered `401` again;
that answer is what `execute` returns, and nothing more is sent. -/
theorem execute_retry_with_token_witness :
    execute scriptedEnv (tagsRequest scriptedEnv "myorg/app".toList)
        { st := [unauthorized challengeD,
                 answered 200 [] "\x7b\"token\":\"abc\"\x7d".toList,
                 unauthorized challengeD], trace := [] }
      = (Res.ok (unauthorized challengeD),
         { st := [],
           trace :=
             [Event.executeEnd (tagsRequest scriptedEnv "myorg/app".toList),
              Event.getTokenEnd
                { Method := "GET".toList, Url := "https://auth.example/token".toList,
                  Header := [],
                  QueryData := [("scope".toList, "repository:myorg/app:pull".toList),
                                ("service".toList, "registry.example".toList)],
                  BasicAuth := none },
              Event.executeEnd
                { Method := "GET".toList,
                  Url := "https://registry.example/v2/myorg/app/tags/list".toList,
                  Header := [("Authorization".toList, "Bearer abc".toList)],
                  QueryData := [], BasicAuth := none }] }) :=
  (execute_retry_with_token scriptedEnv (tagsRequest scriptedEnv "myorg/app".toList)
    { st := [unauthorized challengeD,
             answered 200 [] "\x7b\"token\":\"abc\"\x7d".toList,
             unauthorized challengeD], trace := [] }
    { StatusCode := 401, Header := [("Www-Authenticate".toList, challengeD)] }
    "unauthorized".toList
    [answered 200 [] "\x7b\"token\":\"abc\"\x7d".toList, unauthorized challengeD]
    [("realm".toList, "https://auth.example/token".toList),
     ("service".toList, "registry.example".toList),
     ("scope".toList, "repository:myorg/app:pull".toList)]
    "abc".toList
    { st := [unauthorized challengeD],
      trace := [Event.executeEnd (tagsRequest scriptedEnv "myorg/app".toList),
        Event.getTokenEnd (tokenRequest scriptedEnv "https://auth.example/token".toList
          "repository:myorg/app:pull".toList "registry.example".toList)] }
    rfl rfl (by decide) (by decide) rfl).1

/-- C9.  When the first attempt is answered `401` with a non-empty challenge
that parses to `opts`, and `getToken` on the realm, scope and service of `opts`
returns the errors `errs`, `execute` returns the first response and body with
the single error `Cannot retreive token: [errs]`, and the run consists of the
first `End()` and the token request: no second request is sent. -/
theorem execute_token_failure {σ : Type} (env : Env σ) (s : SuperAgent) (w : World σ)
    (resp : Response) (body : GoString) (st1 : σ) (opts : GoMap) (errs : List GoError)
    (t : GoString) (w2 : World σ)
    (h1 : env.transport s w.st = ({ resp := some resp, body := body, errs := none }, st1))
    (h401 : resp.StatusCode = 401)
    (hhdr : resp.HeaderGet "www-authenticate".toList ≠ [])
    (hparse : parseAuthenticateString (resp.HeaderGet "www-authenticate".toList) = Res.ok opts)
    (htok : getToken env (GoMap.index opts "realm".toList) (GoMap.index opts "scope".toList)
        (GoMap.index opts "service".toList)
        { st := st1, trace := w.trace ++ [Event.executeEnd s] } = ((t, some errs), w2)) :
    execute env s w
      = (Res.ok { resp := some resp, body := body,
                  errs := some ["Cannot retreive token: ".toList ++ fmtErrs errs] },
         { st := w2.st,
           trace := w.trace ++
             [Event.executeEnd s,
              Event.getTokenEnd (tokenRequest env (GoMap.index opts "realm".toList)
                (GoMap.index opts "scope".toList) (GoMap.index opts "service".toList))] }) := by
  have htr := getToken_trace env (GoMap.index opts "realm".toList)
    (GoMap.index opts "scope".toList) (GoMap.index opts "service".toList)
    { st := st1, trace := w.trace ++ [Event.executeEnd s] }
  rw [htok] at htr
  have hw2 : w2 = _ := htr
  rw [execute_challenged env s w resp body st1 h1 h401 hhdr, hparse]
  simp only [htok]
  rw [hw2]
  simp

/-- Witness for C9: scenario D with an unreachable token server; the answer
that waits in the script for a second request is never asked for. -/
theorem execute_token_failure_witness :
    execute scriptedEnv (tagsRequest scriptedEnv "myorg/app".toList)
        { st := [unauthorized challengeD,
                 { resp := none, body := [], errs := some ["dial tcp: timeout".toList] },
                 answered 200 [] []], trace := [] }
      = (Res.ok { resp := some { StatusCode := 401,
                                 Header := [("Www-Authenticate".toList, challengeD)] },
                  body := "unauthorized".toList,
                  errs := some ["Cannot retreive token: [dial tcp: timeout]".toList] },
         { st := [answered 200 [] []],
           trace :=
             [Event.executeEnd (tagsRequest scriptedEnv "myorg/app".toList),
              Event.getTokenEnd (tokenRequest scriptedEnv "https://auth.example/token".toList
                "repository:myorg/app:pull".toList "registry.example".toList)] }) :=
  execute_token_failure scriptedEnv (tagsRequest scriptedEnv "myorg/app".toList)
    { st := [unauthorized challengeD,
             { resp := none, body := [], errs := some ["dial tcp: timeout".toList] },
             answered 200 [] []], trace := [] }
    { StatusCode := 401, Header := [("Www-Authenticate".toList, challengeD)] }
    "unauthorized".toList
    [{ resp := none, body := [], errs := some ["dial tcp: timeout".toList] },
     answered 200 [] []]
    [("realm".toList, "https://auth.example/token".toList),
     ("service".toList, "registry.example".toList),
     ("scope".toList, "repository:myorg/app:pull".toList)]
    ["dial tcp: timeout".toList] []
    { st := [answered 200 [] []],
      trace := [Event.executeEnd (tagsRequest scriptedEnv "myorg/app".toList),
        Event.getTokenEnd (tokenRequest scriptedEnv "https://auth.example/token".toList
          "repository:myorg/app:pull".toList "registry.example".toList)] }
    rfl rfl (by decide) (by decide) rfl

/-- C10.  The parser never looks at the scheme: two challenges with the same
parameter text `p` and schemes `a`, `b` without a space parse to the same
result.  Hence two runs of `execute` whose first attempts are answered `401`
with those two challenges, and that are otherwise alike, leave the same trace
and transport state (the same token request, the same retry), and return the
same result, or, when the token request failed, the same body and errors next
to their own first response. -/
theorem scheme_ignored {σ : Type} (a b p : GoString) (ha : ' ' ∉ a) (hb : ' ' ∉ b)
    (env : Env σ) (s : SuperAgent) (w w2 : World σ) (r r2 : Response) (body : GoString)
    (st1 : σ)
    (h1 : env.transport s w.st = ({ resp := some r, body := body, errs := none }, st1))
    (h2 : env.transport s w2.st = ({ resp := some r2, body := body, errs := none }, st1))
    (htr : w.trace = w2.trace)
    (h401 : r.StatusCode = 401) (h401b : r2.StatusCode = 401)
    (hh : r.HeaderGet "www-authenticate".toList = a ++ ' ' :: p)
    (hh2 : r2.HeaderGet "www-authenticate".toList = b ++ ' ' :: p) :
    parseAuthenticateString (a ++ ' ' :: p) = parseAuthenticateString (b ++ ' ' :: p) ∧
    (execute env s w).2 = (execute env s w2).2 ∧
    ((execute env s w).1 = (execute env s w2).1 ∨
      ∃ errs, (execute env s w).1 = Res.ok { resp := some r, body := body, errs := some errs } ∧
        (execute env s w2).1 = Res.ok { resp := some r2, body := body, errs := some errs }) := by
  have hp := parse_same_rest a b p ha hb
  refine ⟨hp, ?_⟩
  have hne : r.HeaderGet "www-authenticate".toList ≠ [] := by rw [hh]; simp
  have hne2 : r2.HeaderGet "www-authenticate".toList ≠ [] := by rw [hh2]; simp
  rw [execute_challenged env s w r body st1 h1 h401 hne,
    execute_challenged env s w2 r2 body st1 h2 h401b hne2, hh, hh2, hp, htr]
  cases parseAuthenticateString (b ++ ' ' :: p) with
  | panic e => exact ⟨rfl, Or.inl rfl⟩
  | ok opts =>
    simp only []
    cases hg : (getToken env (GoMap.index opts "realm".toList) (GoMap.index opts "scope".toList)
        (GoMap.index opts "service".toList)
        { st := st1, trace := w2.trace ++ [Event.executeEnd s] }).1.2 with
    | none => exact ⟨rfl, Or.inl rfl⟩
    | some errs => exact ⟨rfl, Or.inr ⟨_, rfl, rfl⟩⟩

/-- Witness for C10: the parameters of scenario D under the scheme `Basic` and
under `Bearer`; both runs ask the token server and retry with `Bearer abc`. -/
theorem scheme_ignored_witness :
    (execute scriptedEnv (tagsRequest scriptedEnv "myorg/app".toList)
        { st := [unauthorized ("Basic".toList ++ challengeD.drop 6),
                 answered 200 [] "\x7b\"token\":\"abc\"\x7d".toList,
                 answered 200 [] []], trace := [] }).2
      = (execute scriptedEnv (tagsRequest scriptedEnv "myorg/app".toList)
        { st := [unauthorized challengeD,
                 answered 200 [] "\x7b\"token\":\"abc\"\x7d".toList,
                 answered 200 [] []], trace := [] }).2 ∧
    (execute scriptedEnv (tagsRequest scriptedEnv "myorg/app".toList)
        { st := [unauthorized ("Basic".toList ++ challengeD.drop 6),
                 answered 200 [] "\x7b\"token\":\"abc\"\x7d".toList,
                 answered 200 [] []], trace := [] }).2.trace
      = [Event.executeEnd (tagsRequest scriptedEnv "myorg/app".toList),
         Event.getTokenEnd (tokenRequest scriptedEnv "https://auth.example/token".toList
           "repository:myorg/app:pull".toList "registry.example".toList),
         Event.executeEnd (authorized (tagsRequest scriptedEnv "myorg/app".toList)
           "abc".toList)] :=
  ⟨(scheme_ignored "Basic".toList "Bearer".toList (challengeD.drop 7) (by decide) (by decide)
      scriptedEnv (tagsRequest scriptedEnv "myorg/app".toList)
      { st := [unauthorized ("Basic".toList ++ challengeD.drop 6),
               answered 200 [] "\x7b\"token\":\"abc\"\x7d".toList,
               answered 200 [] []], trace := [] }
      { st := [unauthorized challengeD,
               answered 200 [] "\x7b\"token\":\"abc\"\x7d".toList,
               answered 200 [] []], trace := [] }
      { StatusCode := 401,
        Header := [("Www-Authenticate".toList, "Basic".toList ++ challengeD.drop 6)] }
      { StatusCode := 401, Header := [("Www-Authenticate".toList, challengeD)] }
      "unauthorized".toList
      [answered 200 [] "\x7b\"token\":\"abc\"\x7d".toList, answered 200 [] []]
      rfl rfl rfl rfl rfl (by decide) (by decide)).2.1,
   by decide⟩

/-- C5, on the code.  A challenge without a space, or one whose text after the
first space has a comma-separated part without `=`, makes
`parseAuthenticateString` panic with `index out of range [1] with length 1`;
`execute`, on a `401` carrying such a (non-empty) challenge, panics in the same
way after its first `End()` instead of returning an error. -/
theorem malformed_challenge_panics (v : GoString)
    (hmal : ' ' ∉ v ∨ ∃ scheme rest, v = scheme ++ ' ' :: rest ∧ ' ' ∉ scheme ∧
      ∃ part ∈ Split rest [','], '=' ∉ part) :
    parseAuthenticateString v = Res.panic (Panic.indexOutOfRange 1 1) ∧
    ∀ (σ : Type) (env : Env σ) (s : SuperAgent) (w : World σ) (resp : Response)
      (body : GoString) (st1 : σ),
      env.transport s w.st = ({ resp := some resp, body := body, errs := none }, st1) →
      resp.StatusCode = 401 → resp.HeaderGet "www-authenticate".toList = v → v ≠ [] →
      execute env s w = (Res.panic (Panic.indexOutOfRange 1 1),
        { st := st1, trace := w.trace ++ [Event.executeEnd s] }) := by
  have hp : parseAuthenticateString v = Res.panic (Panic.indexOutOfRange 1 1) := by
    rcases hmal with h | ⟨scheme, rest, rfl, hs, hpart⟩
    · exact parse_no_space v h
    · simp only [parseAuthenticateString, SplitN_two_cut ' ' scheme rest hs, sliceIndex,
        List.get?]
      exact parseParts_missing_eq _ _ hpart
  refine ⟨hp, ?_⟩
  intro σ env s w resp body st1 h1 h401 hh hne
  rw [execute_challenged env s w resp body st1 h1 h401 (by rw [hh]; exact hne), hh, hp]

/-- Witness for C5: the challenge of scenario D with the scope
`repository:myorg/app:pull,push`; the part `push"` has no `=`. -/
theorem malformed_challenge_panics_witness :
    parseAuthenticateString challengePullPush = Res.panic (Panic.indexOutOfRange 1 1) ∧
    execute scriptedEnv (tagsRequest scriptedEnv "myorg/app".toList)
        { st := [unauthorized challengePullPush], trace := [] }
      = (Res.panic (Panic.indexOutOfRange 1 1),
         { st := [],
           trace := [Event.executeEnd (tagsRequest scriptedEnv "myorg/app".toList)] }) ∧
    parseAuthenticateString "Bearer".toList = Res.panic (Panic.indexOutOfRange 1 1) :=
  ⟨(malformed_challenge_panics challengePullPush
      (Or.inr ⟨"Bearer".toList, challengePullPush.drop 7,
        by decide, by decide, "push\"".toList, by decide, by decide⟩)).1,
   (malformed_challenge_panics challengePullPush
      (Or.inr ⟨"Bearer".toList, challengePullPush.drop 7,
        by decide, by decide, "push\"".toList, by decide, by decide⟩)).2
      _ scriptedEnv (tagsRequest scriptedEnv "myorg/app".toList)
      { st := [unauthorized challengePullPush], trace := [] }
      { StatusCode := 401, Header := [("Www-Authenticate".toList, challengePullPush)] }
      "unauthorized".toList [] rfl rfl (by decide) (by decide),
   (malformed_challenge_panics "Bearer".toList (Or.inl (by decide))).1⟩

/-- C8, as amended.  For each of `Tags`, `TagDigest` and `Delete`: when
`execute` returns no error at all, that is `(resp, body, nil)` with a response,
the operation returns, for a status of 300
or more, the error `Docker API return error: <body>` (`returns` for `Delete`)
and neither tags nor digest; for a lower status, `Delete` returns no error,
`TagDigest` returns the `docker-content-digest` header when it is non-empty and
the error `API returns empty digest` when it is empty, and `Tags` returns what
the JSON decoding of the body gives. -/
theorem registry_status_mapping {σ : Type} (op : Op) (env : Env σ) (repo ref : GoString)
    (w w1 : World σ) (r : EndResult) (resp : Response)
    (hx : execute env (op.request env repo ref) (w.record (op.call repo ref)) = (Res.ok r, w1))
    (herrs : r.errs = none) (hresp : r.resp = some resp) :
    op.run env repo ref w
      = (Res.ok
          (if resp.StatusCode ≥ 300 then ([], [], some (op.apiErrorText ++ r.body))
           else match op with
             | Op.tags =>
               (match env.jsonTags r.body with
                | Except.error err => ([], [], some err)
                | Except.ok ts => (ts, [], none))
             | Op.tagDigest =>
               if resp.HeaderGet "docker-content-digest".toList = [] then
                 ([], [], some "API returns empty digest".toList)
               else ([], resp.HeaderGet "docker-content-digest".toList, none)
             | Op.delete => ([], [], none)), w1) := by
  cases op with
  | tags =>
    simp only [Op.request, Op.call] at hx
    simp only [Op.run, Tags, hx, herrs, hresp, Op.apiErrorText]
    by_cases hs : resp.StatusCode ≥ 300
    · simp only [hs, if_true]
    · simp only [hs, if_false]
      cases env.jsonTags r.body <;> rfl
  | tagDigest =>
    simp only [Op.request, Op.call] at hx
    simp only [Op.run, TagDigest, hx, herrs, hresp, Op.apiErrorText]
    by_cases hs : resp.StatusCode ≥ 300
    · simp only [hs, if_true]
    · simp only [hs, if_false]
      by_cases hd : resp.HeaderGet "docker-content-digest".toList = []
      · simp only [hd, if_true]
      · simp only [hd, if_false]
  | delete =>
    simp only [Op.request, Op.call] at hx
    simp only [Op.run, Delete, hx, herrs, hresp, Op.apiErrorText]
    by_cases hs : resp.StatusCode ≥ 300
    · simp only [hs, if_true]
    · simp only [hs, if_false]

/-- Witness for C8: `Delete` answered `404`, and `TagDigest` answered `200` with
a digest header. -/
theorem registry_status_mapping_witness :
    Op.run scriptedEnv "myorg/app".toList "sha256:deadbeef".toList
        { st := [answered 404 [] "manifest unknown".toList], trace := [] } Op.delete
      = (Res.ok ([], [], some "Docker API returns error: manifest unknown".toList),
         { st := [],
           trace := [Event.callDelete "myorg/app".toList "sha256:deadbeef".toList,
             Event.executeEnd (deleteRequest scriptedEnv "myorg/app".toList
               "sha256:deadbeef".toList)] }) ∧
    Op.run scriptedEnv "myorg/app".toList "v1".toList
        { st := [answered 200
            [("Docker-Content-Digest".toList, "sha256:deadbeef".toList)] []], trace := [] }
        Op.tagDigest
      = (Res.ok ([], "sha256:deadbeef".toList, none),
         { st := [],
           trace := [Event.callTagDigest "myorg/app".toList "v1".toList,
             Event.executeEnd (tagDigestRequest scriptedEnv "myorg/app".toList
               "v1".toList)] }) :=
  ⟨registry_status_mapping Op.delete scriptedEnv "myorg/app".toList "sha256:deadbeef".toList
      { st := [answered 404 [] "manifest unknown".toList], trace := [] }
      { st := [],
        trace := [Event.callDelete "myorg/app".toList "sha256:deadbeef".toList,
          Event.executeEnd (deleteRequest scriptedEnv "myorg/app".toList
            "sha256:deadbeef".toList)] }
      (answered 404 [] "manifest unknown".toList) { StatusCode := 404, Header := [] }
      rfl rfl rfl,
   registry_status_mapping Op.tagDigest scriptedEnv "myorg/app".toList "v1".toList
      { st := [answered 200
          [("Docker-Content-Digest".toList, "sha256:deadbeef".toList)] []], trace := [] }
      { st := [],
        trace := [Event.callTagDigest "myorg/app".toList "v1".toList,
          Event.executeEnd (tagDigestRequest scriptedEnv "myorg/app".toList "v1".toList)] }
      (answered 200 [("Docker-Content-Digest".toList, "sha256:deadbeef".toList)] [])
      { StatusCode := 200,
        Header := [("Docker-Content-Digest".toList, "sha256:deadbeef".toList)] }
      rfl rfl rfl⟩

/-- Counterexample to C8 as stated: the registry answers `401` without a
`WWW-Authenticate` header and with the body `unauthorized`.  The transport
reports no error and the final status is 401, yet `execute` returns its own
error, and `Tags`, `TagDigest` and `Delete` return
`[Empty www-authenticate header]`, which does not contain the body. -/
theorem registry_error_without_body_counterexample :
    (scripted (deleteRequest scriptedEnv "myorg/app".toList "sha256:deadbeef".toList)
        [answered 401 [] "unauthorized".toList]).1
      = { resp := some { StatusCode := 401, Header := [] }, body := "unauthorized".toList,
          errs := none } ∧
    (401 : Int) ≥ 300 ∧
    (execute scriptedEnv (deleteRequest scriptedEnv "myorg/app".toList "sha256:deadbeef".toList)
        { st := [answered 401 [] "unauthorized".toList], trace := [] }).1
      = Res.ok { resp := some { StatusCode := 401, Header := [] },
                 body := "unauthorized".toList,
                 errs := some ["Empty www-authenticate header".toList] } ∧
    (Delete scriptedEnv "myorg/app".toList "sha256:deadbeef".toList
        { st := [answered 401 [] "unauthorized".toList], trace := [] }).1
      = Res.ok (some "[Empty www-authenticate header]".toList) ∧
    (TagDigest scriptedEnv "myorg/app".toList "v1".toList
        { st := [answered 401 [] "unauthorized".toList], trace := [] }).1
      = Res.ok ([], some "[Empty www-authenticate header]".toList) ∧
    (Tags scriptedEnv "myorg/app".toList
        { st := [answered 401 [] "unauthorized".toList], trace := [] }).1
      = Res.ok ([], some "[Empty www-authenticate header]".toList) ∧
    ¬ ("unauthorized".toList <:+: "[Empty www-authenticate header]".toList) := by
  decide

/-- C6.  The registry operations `deleteTag` enters, in order, are: `Delete` on
`ref` itself, and nothing else, when `ref` starts with `sha256:`; otherwise
`TagDigest` on `ref`, followed by `Delete` on the digest it returned when it
returned one without error, and by nothing when it failed.  So `TagDigest` is
entered if and only if `ref` does not start with `sha256:`; a `ref` shorter
than seven characters does not start with it. -/
theorem deleteTag_routing {σ : Type} (env : Env σ) (repo ref : GoString) (w : World σ) :
    ((deleteTag env repo ref w).2.callsAfter w.trace.length
      = if "sha256:".toList <+: ref then [Event.callDelete repo ref]
        else match (TagDigest env repo ref w).1 with
          | Res.ok (digest, none) =>
            [Event.callTagDigest repo ref, Event.callDelete repo digest]
          | _ => [Event.callTagDigest repo ref]) ∧
    ((∃ r f, Event.callTagDigest r f ∈ (deleteTag env repo ref w).2.callsAfter w.trace.length)
      ↔ ¬ "sha256:".toList <+: ref) ∧
    (ref.length < 7 → ¬ "sha256:".toList <+: ref) := by
  have hmain : (deleteTag env repo ref w).2.callsAfter w.trace.length
      = if "sha256:".toList <+: ref then [Event.callDelete repo ref]
        else match (TagDigest env repo ref w).1 with
          | Res.ok (digest, none) =>
            [Event.callTagDigest repo ref, Event.callDelete repo digest]
          | _ => [Event.callTagDigest repo ref] := by
    by_cases hp : "sha256:".toList <+: ref
    · have hc := (digest_form_iff ref).mpr hp
      obtain ⟨evs, h1, h2⟩ := Delete_trace env repo ref w
      simp only [deleteTag, hc, Bool.not_true, hp, if_true, if_false, Bool.false_eq_true]
      rw [deleteAndReport_world,
        callsAfter_of_trace w _ _ h1]
      simp [List.filter, Event.isCall, h2]
    · have hc : (decide (ref.length ≥ 7) && decide (ref.take 7 = "sha256:".toList)) = false := by
        cases hb : (decide (ref.length ≥ 7) && decide (ref.take 7 = "sha256:".toList)) with
        | false => rfl
        | true => exact absurd ((digest_form_iff ref).mp hb) hp
      obtain ⟨evs, h1, h2⟩ := TagDigest_trace env repo ref w
      simp only [deleteTag, hc, Bool.not_false, hp, if_true, if_false]
      cases ht : (TagDigest env repo ref w).1 with
      | panic e =>
        simp only []
        rw [callsAfter_of_trace w _ _ h1]
        simp [List.filter, Event.isCall, h2]
      | ok x =>
        obtain ⟨digest, err⟩ := x
        cases err with
        | some e =>
          simp only []
          rw [callsAfter_of_trace w _ _ h1]
          simp [List.filter, Event.isCall, h2]
        | none =>
          simp only []
          obtain ⟨evs2, h3, h4⟩ := Delete_trace env repo digest (TagDigest env repo ref w).2
          rw [deleteAndReport_world]
          have h5 : (Delete env repo digest (TagDigest env repo ref w).2).2.trace
              = w.trace ++ (Event.callTagDigest repo ref :: evs
                  ++ Event.callDelete repo digest :: evs2) := by
            rw [h3, h1]; simp
          rw [callsAfter_of_trace w _ _ h5]
          simp [List.filter_append, List.filter, Event.isCall, h2, h4]
  refine ⟨hmain, ?_, ?_⟩
  · rw [hmain]
    by_cases hp : "sha256:".toList <+: ref
    · rw [if_pos hp]
      constructor
      · rintro ⟨r, f, h⟩
        simp at h
      · intro h
        exact absurd hp h
    · rw [if_neg hp]
      simp only [hp, not_false_eq_true, iff_true]
      refine ⟨repo, ref, ?_⟩
      split <;> simp
  · intro hlt hp
    have := hp.length_le
    have hl : "sha256:".toList.length = 7 := by decide
    omega

end DockerRegistry
